import Mathlib

/-!
Verification development for the tenant-scoped RAG ingestion pipeline of the
form-chat-ga4 repository.  The data model is embedded from
`src/frontend/src/components/RagFileManagementPage.tsx` (status enum, allowed
extensions, file-selection handler) and
`src/backend/supabase/migrations/0005_rag_tables_schema.sql` (job record
columns, the `moddatetime` trigger on `updated_at`).  The backend service code
(Job Store transition enforcement, Ingestion Gateway, Indexing Worker,
Retrieval Context Builder) is not present in the repository snapshot; those
operations are modelled from the specification, as marked on each definition.
-/

namespace RagPipeline

/-- The `RagProcessingStatus` enum of
`src/frontend/src/components/RagFileManagementPage.tsx`, lines 5-17. -/
inductive RagProcessingStatus where
  | pending_upload
  | upload_to_gcs_failed
  | pending_preprocess
  | preprocessing
  | preprocess_failed
  | pending_indexing
  | indexing
  | completed
  | failed
  | deleting
  | deleted
deriving DecidableEq, BEq, Repr

open RagProcessingStatus

/-- Modelled from the spec: section 4.4 names `upload_to_gcs_failed`,
`preprocess_failed`, `failed`, `completed`, `deleted` as the terminal states. -/
def isTerminal : RagProcessingStatus → Bool
  | upload_to_gcs_failed => true
  | preprocess_failed => true
  | failed => true
  | completed => true
  | deleted => true
  | _ => false

/-- Modelled from the spec: the directed transition graph of section 4.4.
`pending_upload → {pending_preprocess | upload_to_gcs_failed}`,
`pending_preprocess → preprocessing`,
`preprocessing → {pending_indexing | preprocess_failed}`,
`pending_indexing → indexing`, `indexing → {completed | failed}`,
any non-terminal state `→ deleting`, and `deleting → deleted`. -/
def stepAllowed : RagProcessingStatus → RagProcessingStatus → Bool
  | pending_upload, pending_preprocess => true
  | pending_upload, upload_to_gcs_failed => true
  | pending_preprocess, preprocessing => true
  | preprocessing, pending_indexing => true
  | preprocessing, preprocess_failed => true
  | pending_indexing, indexing => true
  | indexing, completed => true
  | indexing, failed => true
  | deleting, deleted => true
  | s, deleting => !(isTerminal s) && !(s == deleting)
  | _, _ => false

/-- A row of `public.rag_uploaded_files`
(`src/backend/supabase/migrations/0005_rag_tables_schema.sql`, lines 13-29),
with identifiers and timestamps abstracted to naturals and only the columns
the claims mention retained. -/
structure JobRecord where
  processing_id : Nat
  tenant_id : Nat
  original_filename : String
  file_size : Nat
  processing_status : RagProcessingStatus
  status_message : Option String
  created_at : Nat
  updated_at : Nat
deriving DecidableEq, Repr

/-- The `handle_updated_at_rag_uploaded_files` trigger
(`0005_rag_tables_schema.sql`, lines 68-72): `extensions.moddatetime` runs
before every row update and overwrites `updated_at` with the write time. -/
def handle_updated_at (row : JobRecord) (now : Nat) : JobRecord :=
  { row with updated_at := now }

/-- Modelled from the spec: the Job Store write operation of section 4.4.
The store rejects a write whose status change is not an edge of the
transition graph, and an accepted write installs the new status, its
`status_message`, and the trigger-maintained `updated_at` atomically. -/
def applyTransition (j : JobRecord) (target : RagProcessingStatus)
    (msg : Option String) (now : Nat) : Option JobRecord :=
  if stepAllowed j.processing_status target then
    some (handle_updated_at
      { j with processing_status := target, status_message := msg } now)
  else
    none

theorem terminal_no_step (s t : RagProcessingStatus) (h : isTerminal s = true) :
    stepAllowed s t = false := by
  revert h; cases s <;> cases t <;> decide

/-- C1: every write accepted by the Job Store moves the status along an edge
of the section 4.4 transition graph, and a job whose status is terminal
(`completed`, `failed`, `upload_to_gcs_failed`, `preprocess_failed`,
`deleted`) admits no accepted write at all: the store returns rejection for
every attempted target. -/
theorem c1_status_forward_only (j : JobRecord) (target : RagProcessingStatus)
    (msg : Option String) (now : Nat) :
    (∀ j2, applyTransition j target msg now = some j2 →
      stepAllowed j.processing_status target = true ∧
      j2.processing_status = target) ∧
    (isTerminal j.processing_status = true →
      applyTransition j target msg now = none) := by
  constructor
  · intro j2 hj2
    unfold applyTransition at hj2
    by_cases hstep : stepAllowed j.processing_status target = true
    · refine ⟨hstep, ?_⟩
      rw [if_pos hstep] at hj2
      cases hj2
      rfl
    · rw [if_neg hstep] at hj2
      exact absurd hj2 (by simp)
  · intro hterm
    unfold applyTransition
    rw [if_neg]
    rw [terminal_no_step j.processing_status target hterm]
    simp

/-- Witness for C1 at a concrete record: a job in terminal state `completed`
rejects a write to `pending_upload`. -/
theorem c1_status_forward_only_witness :
    applyTransition
      { processing_id := 0, tenant_id := 0, original_filename := "a.pdf",
        file_size := 7, processing_status := completed, status_message := none,
        created_at := 0, updated_at := 1 } pending_upload none 2 = none :=
  (c1_status_forward_only
      { processing_id := 0, tenant_id := 0, original_filename := "a.pdf",
        file_size := 7, processing_status := completed, status_message := none,
        created_at := 0, updated_at := 1 } pending_upload none 2).2 (by decide)

/-- C8: an accepted Job Store write stamps `updated_at` with the write time
(the `moddatetime` trigger fires on every update), so a status-changing write
whose time differs from the stored `updated_at` always changes `updated_at`. -/
theorem c8_updated_at_changes (j : JobRecord) (target : RagProcessingStatus)
    (msg : Option String) (now : Nat) (j2 : JobRecord)
    (hacc : applyTransition j target msg now = some j2) :
    j2.updated_at = now ∧ (j.updated_at ≠ now → j2.updated_at ≠ j.updated_at) := by
  unfold applyTransition at hacc
  by_cases hstep : stepAllowed j.processing_status target = true
  · rw [if_pos hstep] at hacc
    cases hacc
    exact ⟨rfl, fun hne => fun h => hne h.symm⟩
  · rw [if_neg hstep] at hacc
    exact absurd hacc (by simp)

/-- Witness for C8: moving a concrete job from `pending_upload` to
`pending_preprocess` at time 5 sets `updated_at` to 5, different from the
stored value 1. -/
theorem c8_updated_at_changes_witness :
    ({ processing_id := 0, tenant_id := 0, original_filename := "a.pdf",
       file_size := 7, processing_status := pending_preprocess,
       status_message := some "stored", created_at := 0,
       updated_at := 5 } : JobRecord).updated_at = 5 ∧
    ((1 : Nat) ≠ 5 →
      ({ processing_id := 0, tenant_id := 0, original_filename := "a.pdf",
         file_size := 7, processing_status := pending_preprocess,
         status_message := some "stored", created_at := 0,
         updated_at := 5 } : JobRecord).updated_at ≠ 1) :=
  c8_updated_at_changes
    { processing_id := 0, tenant_id := 0, original_filename := "a.pdf",
      file_size := 7, processing_status := pending_upload,
      status_message := none, created_at := 0, updated_at := 1 }
    pending_preprocess (some "stored") 5 _ (by decide)

/-- `lastIndexOf` of the character `.` on a filename, as in
`fileName.lastIndexOf('.')` (RagFileManagementPage.tsx, line 94); `none`
plays the role of JavaScript's `-1`. -/
def lastIndexOfDot : List Char → Option Nat
  | [] => none
  | c :: rest =>
    match lastIndexOfDot rest with
    | some i => some (i + 1)
    | none => if c = '.' then some 0 else none

/-- The `ALLOWED_EXTENSIONS` constant of RagFileManagementPage.tsx, line 49. -/
def ALLOWED_EXTENSIONS : List String :=
  [".pdf", ".txt", ".md", ".docx", ".pptx", ".xlsx"]

/-- The extension extraction of RagFileManagementPage.tsx, lines 94-95:
`lastDotIndex > 0 ? fileName.substring(lastDotIndex).toLowerCase() : ""`.
Lowercasing is ASCII `Char.toLower`, which agrees with JavaScript
`toLowerCase` on the ASCII filenames the claims concern. -/
def fileExtension (fileName : String) : String :=
  match lastIndexOfDot fileName.data with
  | some lastDotIndex =>
    if 0 < lastDotIndex then
      String.mk ((fileName.data.drop lastDotIndex).map Char.toLower)
    else ""
  | none => ""

/-- The membership test `ALLOWED_EXTENSIONS.includes(fileExtension)` of
RagFileManagementPage.tsx, line 97. -/
def isAllowedFile (fileName : String) : Bool :=
  ALLOWED_EXTENSIONS.contains (fileExtension fileName)

/-- The classification loop of RagFileManagementPage.tsx, lines 92-102:
each selected name goes to `validFiles` when its extension is allowed and to
`invalidFileNames` otherwise, preserving selection order. -/
def classifyFiles : List String → List String × List String
  | [] => ([], [])
  | n :: rest =>
    let vi := classifyFiles rest
    if isAllowedFile n then (n :: vi.1, vi.2) else (vi.1, n :: vi.2)

/-- The error string built at RagFileManagementPage.tsx, lines 105-108. -/
def invalidTypeMessage (invalidFileNames : List String) : String :=
  "Invalid file type(s): " ++ String.intercalate ", " invalidFileNames ++
    ". Allowed types: " ++ String.intercalate ", " ALLOWED_EXTENSIONS

/-- The component state `handleFileChange` writes: `selectedFiles` and the
`error` banner. -/
structure SelectionState where
  selectedFiles : List String
  errorMsg : Option String
deriving DecidableEq, Repr

/-- `handleFileChange` of RagFileManagementPage.tsx, lines 83-115, on the
names of the chosen files: with at least one invalid name, the valid files
are selected and one error message lists the invalid names; otherwise all
chosen files are selected and the error is cleared. -/
def handleFileChange (newFiles : List String) : SelectionState :=
  let vi := classifyFiles newFiles
  if 0 < vi.2.length then
    { selectedFiles := vi.1, errorMsg := some (invalidTypeMessage vi.2) }
  else
    { selectedFiles := newFiles, errorMsg := none }

theorem classifyFiles_eq (ns : List String) :
    classifyFiles ns = (ns.filter (fun n => isAllowedFile n),
      ns.filter (fun n => !(isAllowedFile n))) := by
  induction ns with
  | nil => rfl
  | cons n rest ih =>
    cases hn : isAllowedFile n <;>
      simp [classifyFiles, ih, List.filter_cons, hn]

/-- C9: the upload page's extension check yields the empty extension — hence
rejection — exactly when the filename has no `.` or its only last `.` is at
index 0 (a dotfile such as `.pdf`), and it lowercases before comparing, so
`REPORT.PDF` is accepted while `.pdf` and `README` are rejected. -/
theorem c9_extension_extraction :
    (∀ name : String,
      lastIndexOfDot name.data = none ∨ lastIndexOfDot name.data = some 0 →
      fileExtension name = "" ∧ isAllowedFile name = false) ∧
    fileExtension "REPORT.PDF" = ".pdf" ∧
    isAllowedFile "REPORT.PDF" = true ∧
    lastIndexOfDot ".pdf".data = some 0 ∧
    isAllowedFile ".pdf" = false ∧
    lastIndexOfDot "README".data = none ∧
    isAllowedFile "README" = false := by
  refine ⟨?_, by decide, by decide, by decide, by decide, by decide, by decide⟩
  intro name h
  have hext : fileExtension name = "" := by
    unfold fileExtension
    rcases h with h | h <;> simp [h]
  refine ⟨hext, ?_⟩
  unfold isAllowedFile
  rw [hext]
  decide

/-- Witness for C9: the dotfile `.pdf` has the empty extension and is
rejected. -/
theorem c9_extension_extraction_witness :
    fileExtension ".pdf" = "" ∧ isAllowedFile ".pdf" = false :=
  c9_extension_extraction.1 ".pdf" (Or.inr (by decide))

/-- C10: file-type rejection is per-file: the selected files after any
selection are exactly the allowed ones, and when at least one name is
invalid the invalid names are reported together in one error message while
the valid files stay selected. -/
theorem c10_per_file_rejection (newFiles : List String) :
    (handleFileChange newFiles).selectedFiles
        = newFiles.filter (fun n => isAllowedFile n) ∧
    (newFiles.filter (fun n => !(isAllowedFile n)) ≠ [] →
      (handleFileChange newFiles).errorMsg
        = some (invalidTypeMessage
            (newFiles.filter (fun n => !(isAllowedFile n))))) ∧
    (newFiles.filter (fun n => !(isAllowedFile n)) = [] →
      (handleFileChange newFiles).errorMsg = none) := by
  have hcf := classifyFiles_eq newFiles
  unfold handleFileChange
  rw [hcf]
  by_cases hinv : newFiles.filter (fun n => !(isAllowedFile n)) = []
  · rw [hinv]
    have hall : ∀ n ∈ newFiles, isAllowedFile n = true := by
      intro n hn
      have := List.filter_eq_nil_iff.mp hinv n hn
      simpa using this
    have hkeep : newFiles.filter (fun n => isAllowedFile n) = newFiles :=
      List.filter_eq_self.mpr hall
    simp [hkeep]
  · have hlen : 0 < (newFiles.filter (fun n => !(isAllowedFile n))).length :=
      List.length_pos.mpr hinv
    rw [if_pos hlen]
    exact ⟨rfl, fun _ => rfl, fun h => absurd h hinv⟩

/-- Witness for C10 on the mixed selection `[a.pdf, b.exe, c.txt]`: the
allowed files stay selected and the error message names `b.exe`. -/
theorem c10_per_file_rejection_witness :
    (handleFileChange ["a.pdf", "b.exe", "c.txt"]).selectedFiles
        = ["a.pdf", "c.txt"] ∧
    (handleFileChange ["a.pdf", "b.exe", "c.txt"]).errorMsg
        = some (invalidTypeMessage ["b.exe"]) := by
  have h := c10_per_file_rejection ["a.pdf", "b.exe", "c.txt"]
  refine ⟨?_, ?_⟩
  · rw [h.1]; decide
  · have hm := h.2.1 (by decide)
    rw [hm]; decide

/-- Modelled from the spec: the Ingestion Gateway's view of the Job Store — the
jobs created so far and the next fresh `processing_id` (identifiers abstracted
to naturals; the schema's `gen_random_uuid()` likewise never repeats). -/
structure GatewayState where
  jobs : List JobRecord
  nextId : Nat
deriving Repr

/-- Modelled from the spec: the Ingestion Gateway accepting one file
(sections 4.1 and 7): it validates the extension against the allow-list —
using the repository's extraction from RagFileManagementPage.tsx — and on an
invalid extension rejects synchronously with no job created and no
`processing_id` returned; on a valid one it generates a fresh
`processing_id` and creates the job in `pending_upload`. -/
def uploadFile (g : GatewayState) (tenant : Nat) (fileName : String)
    (size : Nat) (now : Nat) : GatewayState × Option Nat :=
  if isAllowedFile fileName then
    ({ jobs := { processing_id := g.nextId, tenant_id := tenant,
                 original_filename := fileName, file_size := size,
                 processing_status := RagProcessingStatus.pending_upload,
                 status_message := none,
                 created_at := now, updated_at := now } :: g.jobs,
       nextId := g.nextId + 1 }, some g.nextId)
  else (g, none)

/-- C3: a file whose extension is not in the allow-list is rejected before
job creation: the gateway returns no `processing_id` and the Job Store is
unchanged — no `IngestionJob` record comes into existence. -/
theorem c3_invalid_extension_no_job (g : GatewayState) (tenant : Nat)
    (fileName : String) (size now : Nat)
    (hbad : isAllowedFile fileName = false) :
    uploadFile g tenant fileName size now = (g, none) := by
  unfold uploadFile
  rw [hbad]
  simp

/-- Witness for C3: uploading `malware.exe` to an empty store returns no
`processing_id` and creates no job. -/
theorem c3_invalid_extension_no_job_witness :
    uploadFile { jobs := [], nextId := 0 } 1 "malware.exe" 100 0
      = ({ jobs := [], nextId := 0 }, none) :=
  c3_invalid_extension_no_job { jobs := [], nextId := 0 } 1 "malware.exe"
    100 0 (by decide)

theorem uploadFile_ok (g : GatewayState) (tenant : Nat) (fileName : String)
    (size now : Nat) (hok : isAllowedFile fileName = true) :
    uploadFile g tenant fileName size now =
      ({ jobs := { processing_id := g.nextId, tenant_id := tenant,
                   original_filename := fileName, file_size := size,
                   processing_status := RagProcessingStatus.pending_upload,
                   status_message := none, created_at := now,
                   updated_at := now } :: g.jobs,
         nextId := g.nextId + 1 }, some g.nextId) := by
  unfold uploadFile
  rw [if_pos hok]

theorem upload_preserves_fresh (g : GatewayState) (tenant : Nat)
    (fileName : String) (size now : Nat)
    (hb : ∀ j ∈ g.jobs, j.processing_id < g.nextId)
    (hnd : (g.jobs.map JobRecord.processing_id).Nodup) :
    (∀ j ∈ (uploadFile g tenant fileName size now).1.jobs,
        j.processing_id < (uploadFile g tenant fileName size now).1.nextId) ∧
    ((uploadFile g tenant fileName size now).1.jobs.map
        JobRecord.processing_id).Nodup := by
  unfold uploadFile
  by_cases hok : isAllowedFile fileName = true
  · rw [if_pos hok]
    refine ⟨?_, ?_⟩
    · intro j hj
      rcases List.mem_cons.mp hj with h | h
      · rw [h]; exact Nat.lt_succ_self _
      · exact Nat.lt_succ_of_lt (hb j h)
    · refine List.nodup_cons.mpr ⟨?_, hnd⟩
      intro hmem
      rcases List.mem_map.mp hmem with ⟨j, hj, hid⟩
      exact absurd (hid ▸ hb j hj) (Nat.lt_irrefl _)
  · rw [if_neg hok]
    exact ⟨hb, hnd⟩

/-- C4: when all stored `processing_id`s are fresh-bounded and pairwise
distinct, uploading the same file content twice yields two accepted jobs
with distinct `processing_id`s, and the resulting store again has pairwise
distinct, fresh-bounded `processing_id`s — ids are generated at creation and
never reused, with no deduplication at the job level. -/
theorem c4_processing_id_unique (g : GatewayState) (t1 t2 : Nat)
    (fileName : String) (size n1 n2 : Nat)
    (hb : ∀ j ∈ g.jobs, j.processing_id < g.nextId)
    (hnd : (g.jobs.map JobRecord.processing_id).Nodup)
    (hok : isAllowedFile fileName = true) :
    (uploadFile g t1 fileName size n1).2 = some g.nextId ∧
    (uploadFile (uploadFile g t1 fileName size n1).1 t2 fileName size n2).2
        = some (g.nextId + 1) ∧
    some g.nextId ≠ some (g.nextId + 1) ∧
    ((uploadFile (uploadFile g t1 fileName size n1).1 t2 fileName size
        n2).1.jobs.map JobRecord.processing_id).Nodup ∧
    (∀ j ∈ (uploadFile (uploadFile g t1 fileName size n1).1 t2 fileName size
        n2).1.jobs,
      j.processing_id
        < (uploadFile (uploadFile g t1 fileName size n1).1 t2 fileName size
            n2).1.nextId) := by
  have h1 := upload_preserves_fresh g t1 fileName size n1 hb hnd
  have h2 := upload_preserves_fresh (uploadFile g t1 fileName size n1).1 t2
    fileName size n2 h1.1 h1.2
  have hid1 : (uploadFile g t1 fileName size n1).2 = some g.nextId := by
    rw [uploadFile_ok g t1 fileName size n1 hok]
  have hid2 : (uploadFile (uploadFile g t1 fileName size n1).1 t2 fileName
      size n2).2 = some (g.nextId + 1) := by
    rw [uploadFile_ok g t1 fileName size n1 hok]
    rw [uploadFile_ok _ t2 fileName size n2 hok]
  refine ⟨hid1, hid2, ?_, h2.2, h2.1⟩
  intro h
  exact absurd (Option.some.inj h) (Nat.ne_of_lt (Nat.lt_succ_self _))

/-- Witness for C4: uploading `a.pdf` twice into an empty store returns the
distinct ids 0 and 1 and leaves a store with distinct, bounded ids. -/
theorem c4_processing_id_unique_witness :
    (uploadFile { jobs := [], nextId := 0 } 1 "a.pdf" 7 0).2 = some 0 ∧
    (uploadFile (uploadFile { jobs := [], nextId := 0 } 1 "a.pdf" 7 0).1 1
        "a.pdf" 7 1).2 = some 1 ∧
    some 0 ≠ some 1 ∧
    ((uploadFile (uploadFile { jobs := [], nextId := 0 } 1 "a.pdf" 7 0).1 1
        "a.pdf" 7 1).1.jobs.map JobRecord.processing_id).Nodup ∧
    (∀ j ∈ (uploadFile (uploadFile { jobs := [], nextId := 0 } 1 "a.pdf" 7
        0).1 1 "a.pdf" 7 1).1.jobs,
      j.processing_id
        < (uploadFile (uploadFile { jobs := [], nextId := 0 } 1 "a.pdf" 7
            0).1 1 "a.pdf" 7 1).1.nextId) :=
  c4_processing_id_unique { jobs := [], nextId := 0 } 1 1 "a.pdf" 7 0 1
    (by simp) (by simp) (by decide)

/-- A chunk held by the Corpus Backend.  `sourceTenant` and
`sourceProcessingId` are ghost provenance recording which tenant's job
imported the chunk; the backend itself keys only on the corpus handle. -/
structure Chunk where
  sourceTenant : Nat
  sourceProcessingId : Nat
  text : String
deriving DecidableEq, Repr

/-- Modelled from the spec: the tenant table's `rag_corpus_id` column
(`corpusOf`), the Corpus Backend's stock of per-handle chunks
(`corpusData`), and a supply of fresh handles (`nextHandle`). -/
structure CorpusState where
  corpusOf : Nat → Option Nat
  nextHandle : Nat
  corpusData : Nat → List Chunk

/-- The state before any ingestion: no tenant has a corpus and every handle
is empty. -/
def initialCorpusState : CorpusState :=
  { corpusOf := fun _ => none, nextHandle := 0, corpusData := fun _ => [] }

/-- Modelled from the spec: `ensure_corpus(tenant_id) -> corpus_handle`
(section 6), the idempotent get-or-create of sections 4.3 and 5: an existing
handle is returned unchanged, otherwise a fresh handle is assigned to the
tenant atomically. -/
def ensureCorpus (s : CorpusState) (tenant : Nat) : CorpusState × Nat :=
  match s.corpusOf tenant with
  | some h => (s, h)
  | none =>
    ({ corpusOf := fun t2 => if t2 = tenant then some s.nextHandle
         else s.corpusOf t2,
       nextHandle := s.nextHandle + 1,
       corpusData := s.corpusData }, s.nextHandle)

/-- Modelled from the spec: the Indexing Worker importing a processed chunk
set into the tenant's corpus (section 4.3): it ensures the tenant's corpus
exists and appends the chunks under that tenant's own handle. -/
def importChunks (s : CorpusState) (tenant : Nat) (pid : Nat)
    (texts : List String) : CorpusState :=
  let sh := ensureCorpus s tenant
  { corpusOf := sh.1.corpusOf, nextHandle := sh.1.nextHandle,
    corpusData := fun h =>
      if h = sh.2 then
        sh.1.corpusData h
          ++ texts.map (fun tx =>
              { sourceTenant := tenant, sourceProcessingId := pid,
                text := tx })
      else sh.1.corpusData h }

/-- Modelled from the spec: the Retrieval Context Builder (section 4.5)
reading only the querying tenant's own corpus handle; `relevant` stands for
the backend's relevance test on passages. -/
def retrieveContext (s : CorpusState) (tenant : Nat)
    (relevant : String → Bool) : List Chunk :=
  match s.corpusOf tenant with
  | none => []
  | some h => (s.corpusData h).filter (fun c => relevant c.text)

/-- Modelled from the spec: the Retrieval Context Builder's result as seen by
the chat caller (section 4.5): an empty sequence when the tenant has no
corpus, a recoverable error distinct from no-results when the backend call
fails transiently, and the ranked passages otherwise. -/
def retrieveContextResult (s : CorpusState) (tenant : Nat)
    (relevant : String → Bool) (backendOk : Bool) :
    Except String (List Chunk) :=
  match s.corpusOf tenant with
  | none => Except.ok []
  | some h =>
    if backendOk then
      Except.ok ((s.corpusData h).filter (fun c => relevant c.text))
    else Except.error "corpus backend unavailable"

/-- States of the corpus subsystem reachable by the pipeline's operations. -/
inductive Reachable : CorpusState → Prop where
  | init : Reachable initialCorpusState
  | ensure (s : CorpusState) (t : Nat) :
      Reachable s → Reachable (ensureCorpus s t).1
  | importStep (s : CorpusState) (t pid : Nat) (texts : List String) :
      Reachable s → Reachable (importChunks s t pid texts)

/-- Handle assignment is fresh-bounded and injective, unassigned handles are
empty, and every chunk under a tenant's handle was imported by that tenant. -/
def CorpusInv (s : CorpusState) : Prop :=
  (∀ t h, s.corpusOf t = some h → h < s.nextHandle) ∧
  (∀ t1 t2 h, s.corpusOf t1 = some h → s.corpusOf t2 = some h → t1 = t2) ∧
  (∀ h, s.nextHandle ≤ h → s.corpusData h = []) ∧
  (∀ t h, s.corpusOf t = some h → ∀ c ∈ s.corpusData h, c.sourceTenant = t)

theorem ensure_already (s : CorpusState) (t h0 : Nat)
    (h : s.corpusOf t = some h0) : ensureCorpus s t = (s, h0) := by
  unfold ensureCorpus
  rw [h]

theorem ensure_new (s : CorpusState) (t : Nat) (h : s.corpusOf t = none) :
    ensureCorpus s t =
      ({ corpusOf := fun t2 => if t2 = t then some s.nextHandle
           else s.corpusOf t2,
         nextHandle := s.nextHandle + 1,
         corpusData := s.corpusData }, s.nextHandle) := by
  unfold ensureCorpus
  rw [h]

theorem ensure_self (s : CorpusState) (t : Nat) :
    (ensureCorpus s t).1.corpusOf t = some (ensureCorpus s t).2 := by
  cases hc : s.corpusOf t with
  | some h0 =>
    rw [ensure_already s t h0 hc]
    exact hc
  | none =>
    rw [ensure_new s t hc]
    simp

theorem ensure_other (s : CorpusState) (t t2 : Nat) (hne : t ≠ t2) :
    (ensureCorpus s t2).1.corpusOf t = s.corpusOf t := by
  cases hc : s.corpusOf t2 with
  | some h0 => rw [ensure_already s t2 h0 hc]
  | none =>
    rw [ensure_new s t2 hc]
    dsimp only
    rw [if_neg hne]

theorem ensure_inv (s : CorpusState) (t : Nat) (hs : CorpusInv s) :
    CorpusInv (ensureCorpus s t).1 := by
  obtain ⟨h1, h2, h3, h4⟩ := hs
  cases hc : s.corpusOf t with
  | some h0 =>
    rw [ensure_already s t h0 hc]
    exact ⟨h1, h2, h3, h4⟩
  | none =>
    rw [ensure_new s t hc]
    refine ⟨?_, ?_, ?_, ?_⟩ <;> dsimp only
    · intro t2 h hh
      by_cases ht : t2 = t
      · rw [if_pos ht] at hh
        cases hh
        exact Nat.lt_succ_self _
      · rw [if_neg ht] at hh
        exact Nat.lt_succ_of_lt (h1 t2 h hh)
    · intro t1 t2 h ha hb
      by_cases ht1 : t1 = t <;> by_cases ht2 : t2 = t
      · rw [ht1, ht2]
      · rw [if_pos ht1] at ha
        rw [if_neg ht2] at hb
        cases ha
        exact absurd (h1 t2 _ hb) (Nat.lt_irrefl _)
      · rw [if_neg ht1] at ha
        rw [if_pos ht2] at hb
        cases hb
        exact absurd (h1 t1 _ ha) (Nat.lt_irrefl _)
      · rw [if_neg ht1] at ha
        rw [if_neg ht2] at hb
        exact h2 t1 t2 h ha hb
    · intro h hh
      exact h3 h (Nat.le_of_succ_le hh)
    · intro t2 h hh c hcm
      by_cases ht : t2 = t
      · rw [if_pos ht] at hh
        cases hh
        rw [h3 s.nextHandle (Nat.le_refl _)] at hcm
        exact absurd hcm (List.not_mem_nil c)
      · rw [if_neg ht] at hh
        exact h4 t2 h hh c hcm

theorem import_inv (s : CorpusState) (t pid : Nat) (texts : List String)
    (hs : CorpusInv s) : CorpusInv (importChunks s t pid texts) := by
  obtain ⟨h1, h2, h3, h4⟩ := ensure_inv s t hs
  have hself := ensure_self s t
  unfold importChunks
  refine ⟨?_, ?_, ?_, ?_⟩ <;> dsimp only
  · exact h1
  · exact h2
  · intro h hh
    have hlt : (ensureCorpus s t).2 < (ensureCorpus s t).1.nextHandle :=
      h1 t _ hself
    have hne : h ≠ (ensureCorpus s t).2 := by
      intro heq
      rw [heq] at hh
      exact absurd hlt (Nat.not_lt.mpr hh)
    rw [if_neg hne]
    exact h3 h hh
  · intro t2 h hh c hcm
    by_cases hhe : h = (ensureCorpus s t).2
    · rw [if_pos hhe] at hcm
      subst hhe
      have ht2 : t2 = t := h2 t2 t _ hh hself
      subst ht2
      rcases List.mem_append.mp hcm with hm | hm
      · exact h4 t2 _ hh c hm
      · rcases List.mem_map.mp hm with ⟨tx, htx, hct⟩
        rw [← hct]
    · rw [if_neg hhe] at hcm
      exact h4 t2 h hh c hcm

theorem reachable_inv (s : CorpusState) (hs : Reachable s) : CorpusInv s := by
  induction hs with
  | init =>
    refine ⟨?_, ?_, ?_, ?_⟩
    · intro t h hh
      exact Option.noConfusion hh
    · intro t1 t2 h ha hb
      exact Option.noConfusion ha
    · intro h hh
      rfl
    · intro t h hh
      exact Option.noConfusion hh
  | ensure s t hr ih => exact ensure_inv s t ih
  | importStep s t pid texts hr ih => exact import_inv s t pid texts ih

/-- C2: in every reachable corpus state, every passage the Retrieval Context
Builder returns for tenant A was imported under tenant A itself — never
under a distinct tenant B, whatever the query relevance and even when both
tenants imported byte-identical content. -/
theorem c2_tenant_isolation (s : CorpusState) (tA tB : Nat)
    (relevant : String → Bool) (hs : Reachable s) (hne : tA ≠ tB) :
    ∀ c ∈ retrieveContext s tA relevant,
      c.sourceTenant = tA ∧ c.sourceTenant ≠ tB := by
  intro c hc
  obtain ⟨h1, h2, h3, h4⟩ := reachable_inv s hs
  unfold retrieveContext at hc
  cases hco : s.corpusOf tA with
  | none =>
    rw [hco] at hc
    exact absurd hc (List.not_mem_nil c)
  | some h =>
    rw [hco] at hc
    have hmem := List.mem_of_mem_filter hc
    have hsrc := h4 tA h hco c hmem
    refine ⟨hsrc, ?_⟩
    rw [hsrc]
    exact hne

/-- Two tenants each import the same text; used to witness C2 concretely. -/
def demoState : CorpusState :=
  importChunks (importChunks initialCorpusState 1 10 ["hello world"]) 2 11
    ["hello world"]

/-- Witness for C2: after tenants 1 and 2 both ingest `hello world`, the one
passage retrieved for tenant 1 has source tenant 1, not tenant 2. -/
theorem c2_tenant_isolation_witness :
    ({ sourceTenant := 1, sourceProcessingId := 10,
       text := "hello world" } : Chunk).sourceTenant = 1 ∧
    ({ sourceTenant := 1, sourceProcessingId := 10,
       text := "hello world" } : Chunk).sourceTenant ≠ 2 :=
  c2_tenant_isolation demoState 1 2 (fun _ => true)
    (Reachable.importStep _ 2 11 ["hello world"]
      (Reachable.importStep _ 1 10 ["hello world"] Reachable.init))
    (by decide)
    { sourceTenant := 1, sourceProcessingId := 10, text := "hello world" }
    (by decide)

/-- Modelled from the spec: `n` successive invocations of the get-or-create
for one tenant, as under racing first uploads serialised by the store. -/
def ensureTimes (t : Nat) : Nat → CorpusState → CorpusState
  | 0, s => s
  | n + 1, s => ensureTimes t n (ensureCorpus s t).1

theorem ensureTimes_succ_eq (t : Nat) :
    ∀ n s, ensureTimes t (n + 1) s = (ensureCorpus s t).1 := by
  intro n
  induction n with
  | zero => intro s; rfl
  | succ n ih =>
    intro s
    show ensureTimes t (n + 1) (ensureCorpus s t).1 = _
    rw [ih (ensureCorpus s t).1, ensure_already _ t _ (ensure_self s t)]

/-- C5: corpus creation is an idempotent get-or-create: after one call the
tenant holds the returned handle, a repeated call changes nothing and
returns the same handle, any positive number of calls equals one call and
still returns the first handle, and a call for a different tenant leaves
this tenant's corpus assignment untouched — at most one corpus per tenant. -/
theorem c5_corpus_get_or_create (s : CorpusState) (t t2 n : Nat)
    (hn : 1 ≤ n) (hne : t ≠ t2) :
    (ensureCorpus s t).1.corpusOf t = some (ensureCorpus s t).2 ∧
    ensureCorpus (ensureCorpus s t).1 t
        = ((ensureCorpus s t).1, (ensureCorpus s t).2) ∧
    ensureTimes t n s = (ensureCorpus s t).1 ∧
    (ensureCorpus (ensureTimes t n s) t).2 = (ensureCorpus s t).2 ∧
    (ensureCorpus s t2).1.corpusOf t = s.corpusOf t := by
  obtain ⟨m, rfl⟩ : ∃ m, n = m + 1 := ⟨n - 1, by omega⟩
  refine ⟨ensure_self s t, ensure_already _ t _ (ensure_self s t),
    ensureTimes_succ_eq t m s, ?_, ensure_other s t t2 hne⟩
  rw [ensureTimes_succ_eq t m s, ensure_already _ t _ (ensure_self s t)]

/-- Witness for C5: three racing get-or-create calls for tenant 1 on the
empty state equal a single call, every call returns handle 0, and a call for
tenant 2 does not touch tenant 1's assignment. -/
theorem c5_corpus_get_or_create_witness :
    (ensureCorpus initialCorpusState 1).1.corpusOf 1
        = some (ensureCorpus initialCorpusState 1).2 ∧
    ensureCorpus (ensureCorpus initialCorpusState 1).1 1
        = ((ensureCorpus initialCorpusState 1).1,
           (ensureCorpus initialCorpusState 1).2) ∧
    ensureTimes 1 3 initialCorpusState
        = (ensureCorpus initialCorpusState 1).1 ∧
    (ensureCorpus (ensureTimes 1 3 initialCorpusState) 1).2
        = (ensureCorpus initialCorpusState 1).2 ∧
    (ensureCorpus initialCorpusState 2).1.corpusOf 1
        = initialCorpusState.corpusOf 1 :=
  c5_corpus_get_or_create initialCorpusState 1 2 3 (by decide) (by decide)

/-- C7: a tenant with no corpus yet gets the successful empty passage list
from the Retrieval Context Builder — not an error — whatever the query and
whatever the backend's health, so the chat caller degrades to an un-grounded
response. -/
theorem c7_no_corpus_empty_retrieval (s : CorpusState) (t : Nat)
    (relevant : String → Bool) (backendOk : Bool)
    (hno : s.corpusOf t = none) :
    retrieveContextResult s t relevant backendOk = Except.ok [] := by
  unfold retrieveContextResult
  rw [hno]

/-- Witness for C7: in the initial state tenant 5 has no corpus and
retrieval returns the empty ok result. -/
theorem c7_no_corpus_empty_retrieval_witness :
    retrieveContextResult initialCorpusState 5 (fun _ => true) false
      = Except.ok [] :=
  c7_no_corpus_empty_retrieval initialCorpusState 5 (fun _ => true) false rfl

/-- Modelled from the spec: the deletion saga's view of one job — its status
row plus whether the raw artifact, the processed artifact, and the
`corpus_file_ref` still exist in the Object Store and Corpus Backend. -/
structure DeletionView where
  processing_status : RagProcessingStatus
  status_message : Option String
  rawPresent : Bool
  processedPresent : Bool
  corpusFilePresent : Bool
deriving DecidableEq, Repr

/-- Modelled from the spec: one pass of cascade deletion (sections 4.4, 7
and the saga note of section 9).  A terminal job is not deletable; otherwise
the job moves to `deleting`, each backend removal is attempted (the Boolean
flags say which calls succeed on this pass), and the job finalises to
`deleted` only when no artifact remains — on partial failure it stays in
`deleting` with the failure recorded for retry. -/
def cascadeDelete (d : DeletionView) (rawOk procOk corpusOk : Bool) :
    Option DeletionView :=
  if isTerminal d.processing_status then none
  else
    let d1 : DeletionView :=
      { processing_status := RagProcessingStatus.deleting,
        status_message := d.status_message,
        rawPresent := d.rawPresent && !rawOk,
        processedPresent := d.processedPresent && !procOk,
        corpusFilePresent := d.corpusFilePresent && !corpusOk }
    if d1.rawPresent || d1.processedPresent || d1.corpusFilePresent then
      some { d1 with
        status_message := some "cascade deletion failed; deletion will be retried" }
    else
      some { d1 with
        processing_status := RagProcessingStatus.deleted,
        status_message := none }

/-- C6: deleting a job in a non-terminal state never silently loses the
record: the pass always returns the job, either finalised to `deleted` with
every artifact removed, or still in `deleting` with a recorded error — and
from that `deleting` state a retry whose removals succeed reaches `deleted`
with all artifacts gone.  Success is never claimed while artifacts remain. -/
theorem c6_delete_no_silent_loss (d : DeletionView) (rawOk procOk corpusOk : Bool)
    (hnt : isTerminal d.processing_status = false) :
    ∃ r, cascadeDelete d rawOk procOk corpusOk = some r ∧
      ((r.processing_status = RagProcessingStatus.deleted ∧
        r.rawPresent = false ∧ r.processedPresent = false ∧
        r.corpusFilePresent = false) ∨
       (r.processing_status = RagProcessingStatus.deleting ∧
        r.status_message ≠ none ∧
        ∃ r2, cascadeDelete r true true true = some r2 ∧
          r2.processing_status = RagProcessingStatus.deleted ∧
          r2.rawPresent = false ∧ r2.processedPresent = false ∧
          r2.corpusFilePresent = false)) := by
  have hcond : ¬ (isTerminal d.processing_status = true) := by
    rw [hnt]
    exact Bool.false_ne_true
  unfold cascadeDelete
  rw [if_neg hcond]
  dsimp only
  by_cases hfail : (d.rawPresent && !rawOk || d.processedPresent && !procOk
      || d.corpusFilePresent && !corpusOk) = true
  · rw [if_pos hfail]
    refine ⟨_, rfl, Or.inr ⟨rfl, by simp, ?_⟩⟩
    refine ⟨{ processing_status := RagProcessingStatus.deleted,
              status_message := none, rawPresent := false,
              processedPresent := false, corpusFilePresent := false },
      ?_, rfl, rfl, rfl, rfl⟩
    dsimp only
    rw [if_neg (by decide : ¬ (isTerminal RagProcessingStatus.deleting = true))]
    rw [if_neg (by simp)]
    simp
  · rw [if_neg hfail]
    rw [Bool.or_eq_true, Bool.or_eq_true] at hfail
    push_neg at hfail
    refine ⟨_, rfl, Or.inl ⟨rfl, ?_, ?_, ?_⟩⟩
    · exact Bool.eq_false_iff.mpr hfail.1.1
    · exact Bool.eq_false_iff.mpr hfail.1.2
    · exact Bool.eq_false_iff.mpr hfail.2

/-- Witness for C6: a pass over an `indexing` job with all three backend
removals failing leaves it in `deleting` with a recorded error, and the
retry finishes the deletion. -/
theorem c6_delete_no_silent_loss_witness :
    ∃ r, cascadeDelete
        { processing_status := RagProcessingStatus.indexing,
          status_message := none, rawPresent := true,
          processedPresent := true, corpusFilePresent := true }
        false false false = some r ∧
      ((r.processing_status = RagProcessingStatus.deleted ∧
        r.rawPresent = false ∧ r.processedPresent = false ∧
        r.corpusFilePresent = false) ∨
       (r.processing_status = RagProcessingStatus.deleting ∧
        r.status_message ≠ none ∧
        ∃ r2, cascadeDelete r true true true = some r2 ∧
          r2.processing_status = RagProcessingStatus.deleted ∧
          r2.rawPresent = false ∧ r2.processedPresent = false ∧
          r2.corpusFilePresent = false)) :=
  c6_delete_no_silent_loss
    { processing_status := RagProcessingStatus.indexing,
      status_message := none, rawPresent := true,
      processedPresent := true, corpusFilePresent := true }
    false false false (by decide)

end RagPipeline
